import Mathlib

/-! SendKeys: the `_sendkeys` extension module (`src/_sendkeys.c`)

A shallow embedding of the three entry points of `_sendkeys.c` (`key_down`,
`key_up`, `toggle_numlock`) and of the two static helpers `_key_down` and
`_key_up`.

* The operating system is an explicit state `Os`: the keyboard-state table and
  the log of the calls made into it, oldest first.
* C integer conversions are written out on `Int`/`Nat`: `(byte)vk` is reduction
  modulo 256, a `char` is the signed 8-bit type of the Windows ABI the module
  is built for, an argument of type `UINT` is reduction modulo 2^32.
* `MapVirtualKeyA` is a parameter of the embedding (any function of its two
  `UINT` arguments).
* `PyArg_ParseTuple(args, "i", &x)` is the CPython argument parser for one C
  `int`.
-/

namespace SendKeys

/-! ## Win32 constants (from `windows.h`) -/

/-- Virtual-key code of NUMLOCK. -/
def VK_NUMLOCK : Nat := 0x90

/-- Flag of `keybd_event`: the key belongs to the extended keyboard block. -/
def KEYEVENTF_EXTENDEDKEY : Nat := 0x0001

/-- Flag of `keybd_event`: the key is being released. -/
def KEYEVENTF_KEYUP : Nat := 0x0002

/-- Smallest value of a C `int` (32 bits on Windows). -/
def INT_MIN : Int := -2147483648

/-- Largest value of a C `int` (32 bits on Windows). -/
def INT_MAX : Int := 2147483647

/-! ## C integer conversions -/

/-- Conversion of an integer value to `byte` / `BYTE` (`unsigned char`). -/
def toBYTE (n : Int) : Nat := (n % 256).toNat

/-- Conversion of an integer value to `char` (signed, 8 bits, wrapping). -/
def toChar (n : Int) : Int := (n + 128) % 256 - 128

/-- Conversion of an integer value to `UINT` (`unsigned int`, 32 bits). -/
def toUINT (n : Int) : Nat := (n % 4294967296).toNat

/-! ## The operating system -/

/-- The four arguments of one `keybd_event` call. -/
structure KeybdEvent where
  /-- Virtual-key code (`BYTE`). -/
  bVk : Nat
  /-- Hardware scan code (`BYTE`). -/
  bScan : Nat
  /-- Flags (`DWORD`). -/
  dwFlags : Nat
  /-- Extra data (`ULONG_PTR`). -/
  dwExtraInfo : Nat
deriving DecidableEq

/-- One call into the operating system, with its arguments. -/
inductive OsCall where
  /-- The scan-code lookup `MapVirtualKeyA(uCode, uMapType)`. -/
  | mapVirtualKey (uCode uMapType : Nat)
  /-- The keyboard-state query `GetKeyboardState`. -/
  | getKeyboardState
  /-- The event injection `keybd_event(bVk, bScan, dwFlags, dwExtraInfo)`. -/
  | keybdEvent (e : KeybdEvent)
deriving DecidableEq

/-- State of the operating system as the module sees it: the 256-entry
keyboard-state table and the log of the calls received, oldest first. -/
structure Os where
  /-- The keyboard-state table, one byte per virtual key; the low bit of an
  entry is the toggle state of the key. -/
  keys : Fin 256 → Nat
  /-- The calls received so far, oldest first. -/
  calls : List OsCall

/-- The synthetic keyboard events among a list of calls, in order. -/
def eventsOf : List OsCall → List KeybdEvent
  | [] => []
  | OsCall.keybdEvent e :: cs => e :: eventsOf cs
  | _ :: cs => eventsOf cs

/-- The scan-code lookups among a list of calls, in order, as pairs
`(uCode, uMapType)`. -/
def lookupsOf : List OsCall → List (Nat × Nat)
  | [] => []
  | OsCall.mapVirtualKey c t :: cs => (c, t) :: lookupsOf cs
  | _ :: cs => lookupsOf cs

/-- The NUMLOCK toggle bit of a keyboard-state table. -/
def numlockBit (keys : Fin 256 → Nat) : Nat := keys ⟨VK_NUMLOCK, by decide⟩ % 2

/-- A keyboard-state table with the low bit of its NUMLOCK entry flipped and
everything else kept. -/
def flipNumlock (keys : Fin 256 → Nat) : Fin 256 → Nat :=
  fun i => if i.val = VK_NUMLOCK then keys i ^^^ 1 else keys i

/-- The keyboard-state table after the operating system has processed one
event: a key-down event for NUMLOCK flips the low bit of the NUMLOCK entry,
any other event leaves the table as it is. -/
def osProcess (keys : Fin 256 → Nat) (e : KeybdEvent) : Fin 256 → Nat :=
  if e.bVk = VK_NUMLOCK ∧ e.dwFlags &&& KEYEVENTF_KEYUP = 0 then flipNumlock keys
  else keys

/-- The call `MapVirtualKeyA(uCode, uMapType)`: logs the call and returns what
the lookup `mapVk` gives, as a `UINT`. -/
def Os.MapVirtualKeyA (mapVk : Nat → Nat → Nat) (w : Os) (uCode uMapType : Nat) :
    Nat × Os :=
  (mapVk uCode uMapType % 4294967296,
    Os.mk w.keys (w.calls ++ [OsCall.mapVirtualKey uCode uMapType]))

/-- The call `keybd_event(bVk, bScan, dwFlags, dwExtraInfo)`: logs the event
and lets the operating system process it. -/
def Os.keybd_event (w : Os) (bVk bScan dwFlags dwExtraInfo : Nat) : Os :=
  Os.mk (osProcess w.keys (KeybdEvent.mk bVk bScan dwFlags dwExtraInfo))
    (w.calls ++ [OsCall.keybdEvent (KeybdEvent.mk bVk bScan dwFlags dwExtraInfo)])

/-- The call `GetKeyboardState(keys)`: logs the call and copies the table into
the caller's buffer. The call is taken to succeed; the module does not look at
its return value. -/
def Os.GetKeyboardState (w : Os) : (Fin 256 → Nat) × Os :=
  (w.keys, Os.mk w.keys (w.calls ++ [OsCall.getKeyboardState]))

/-! ## The Python side -/

/-- The Python objects an argument tuple is built from here. -/
inductive PyObject where
  /-- The object `None`. -/
  | none
  /-- A Python `int`. -/
  | long (n : Int)
  /-- A Python `float`, given as a fraction. -/
  | float (num : Int) (den : Nat)
  /-- A Python `str`. -/
  | unicode (s : String)
deriving DecidableEq

/-- The exceptions the argument parser sets. -/
inductive PyErr where
  /-- Wrong number of arguments, or an argument that is no integer. -/
  | TypeError
  /-- An integer that does not fit a C `int`. -/
  | OverflowError
deriving DecidableEq

/-- The call `PyArg_ParseTuple(args, "i", &x)`: succeeds with the value of `x`
exactly when `args` is one Python `int` that fits a C `int`. -/
def PyArg_ParseTuple_i (args : List PyObject) : Except PyErr Int :=
  match args with
  | [PyObject.long n] =>
      if INT_MIN ≤ n ∧ n ≤ INT_MAX then Except.ok n else Except.error PyErr.OverflowError
  | _ => Except.error PyErr.TypeError

/-! ## The module -/

/-- The static helper `_key_down(char vk)`: sends a key pressed event. The
parameter `vk` is the `char` value; it is converted to `UINT` for the lookup
and to `BYTE` for the event, and the lookup's result goes through the `char`
variable `scan` into the `BYTE` scan code of the event. -/
def _key_down (mapVk : Nat → Nat → Nat) (vk : Int) (w : Os) : Os :=
  let r := w.MapVirtualKeyA mapVk (toUINT vk) 0
  let scan : Int := toChar r.1
  r.2.keybd_event (toBYTE (toChar vk)) (toBYTE scan) 0 0

/-- The static helper `_key_up(char vk)`: sends a key released event. -/
def _key_up (mapVk : Nat → Nat → Nat) (vk : Int) (w : Os) : Os :=
  let r := w.MapVirtualKeyA mapVk (toUINT vk) 0
  let scan : Int := toChar r.1
  r.2.keybd_event (toBYTE (toChar vk)) (toBYTE scan) KEYEVENTF_KEYUP 0

/-- The entry point `toggle_numlock(int) -> int`. -/
def toggle_numlock (args : List PyObject) (w : Os) : Except PyErr PyObject × Os :=
  match PyArg_ParseTuple_i args with
  | Except.error e => (Except.error e, w)
  | Except.ok turn_on =>
      let r := w.GetKeyboardState
      let is_on : Int := ((r.1 ⟨VK_NUMLOCK, by decide⟩ &&& 0x1 : Nat) : Int)
      if is_on ≠ turn_on then
        let w1 := r.2.keybd_event VK_NUMLOCK 0x45 (KEYEVENTF_EXTENDEDKEY ||| 0) 0
        let w2 := w1.keybd_event VK_NUMLOCK 0x45 (KEYEVENTF_EXTENDEDKEY ||| KEYEVENTF_KEYUP) 0
        (Except.ok (PyObject.long is_on), w2)
      else
        (Except.ok (PyObject.long is_on), r.2)

/-- The entry point `key_down(int) -> None`: `(byte)vk` is converted to the
`char` parameter of `_key_down`. -/
def key_down (mapVk : Nat → Nat → Nat) (args : List PyObject) (w : Os) :
    Except PyErr PyObject × Os :=
  match PyArg_ParseTuple_i args with
  | Except.error e => (Except.error e, w)
  | Except.ok vk => (Except.ok PyObject.none, _key_down mapVk (toChar (toBYTE vk)) w)

/-- The entry point `key_up(int) -> None`: `(byte)vk` is converted to the
`char` parameter of `_key_up`. -/
def key_up (mapVk : Nat → Nat → Nat) (args : List PyObject) (w : Os) :
    Except PyErr PyObject × Os :=
  match PyArg_ParseTuple_i args with
  | Except.error e => (Except.error e, w)
  | Except.ok vk => (Except.ok PyObject.none, _key_up mapVk (toChar (toBYTE vk)) w)

/-! ## Concrete inputs used in the examples -/

/-- A keyboard-state table with every entry 0 (NUMLOCK off). -/
def keysOff : Fin 256 → Nat := fun _ => 0

/-- A keyboard-state table with NUMLOCK on and held down (entry 0x81), every other
entry 0. -/
def keysOn : Fin 256 → Nat := fun i => if i.val = VK_NUMLOCK then 0x81 else 0

/-- A lookup that knows the scan code 0x45 of NUMLOCK and nothing else. -/
def mapNumlockOnly : Nat → Nat → Nat := fun c _ => if c = 0x90 then 0x45 else 0

/-- A lookup that returns the two-byte value 0x145 for every key. -/
def mapWide : Nat → Nat → Nat := fun _ _ => 0x145

/-- The NUMLOCK key-down event that `toggle_numlock` sends. -/
def numlockDown : KeybdEvent := KeybdEvent.mk VK_NUMLOCK 0x45 KEYEVENTF_EXTENDEDKEY 0

/-- The NUMLOCK key-up event that `toggle_numlock` sends. -/
def numlockUp : KeybdEvent :=
  KeybdEvent.mk VK_NUMLOCK 0x45 (KEYEVENTF_EXTENDEDKEY ||| KEYEVENTF_KEYUP) 0

/-- The calls `toggle_numlock` makes when it toggles. -/
def toggleCalls : List OsCall :=
  [OsCall.getKeyboardState, OsCall.keybdEvent numlockDown, OsCall.keybdEvent numlockUp]

/-! ## Shared lemmas -/

theorem parse_long {n : Int} (h1 : INT_MIN ≤ n) (h2 : n ≤ INT_MAX) :
    PyArg_ParseTuple_i [PyObject.long n] = Except.ok n := by
  simp [PyArg_ParseTuple_i, h1, h2]

theorem numlockBit_le_one (keys : Fin 256 → Nat) : numlockBit keys ≤ 1 := by
  unfold numlockBit
  omega

theorem numlockBit_flipNumlock (keys : Fin 256 → Nat) :
    numlockBit (flipNumlock keys) = 1 - numlockBit keys := by
  simp only [numlockBit, flipNumlock, if_true, Nat.xor_mod_two_eq]
  omega

theorem flipNumlock_other (keys : Fin 256 → Nat) (i : Fin 256) (h : i.val ≠ VK_NUMLOCK) :
    flipNumlock keys i = keys i := by
  simp [flipNumlock, h]

theorem osProcess_numlockDown (keys : Fin 256 → Nat) :
    osProcess keys numlockDown = flipNumlock keys := by
  simp [osProcess, numlockDown, VK_NUMLOCK, KEYEVENTF_EXTENDEDKEY, KEYEVENTF_KEYUP]

theorem osProcess_numlockUp (keys : Fin 256 → Nat) :
    osProcess keys numlockUp = keys := by
  simp [osProcess, numlockUp, VK_NUMLOCK, KEYEVENTF_EXTENDEDKEY, KEYEVENTF_KEYUP]

theorem eventsOf_append (xs ys : List OsCall) :
    eventsOf (xs ++ ys) = eventsOf xs ++ eventsOf ys := by
  induction xs with
  | nil => rfl
  | cons c cs ih => cases c <;> simp [eventsOf, ih]

theorem lookupsOf_append (xs ys : List OsCall) :
    lookupsOf (xs ++ ys) = lookupsOf xs ++ lookupsOf ys := by
  induction xs with
  | nil => rfl
  | cons c cs ih => cases c <;> simp [lookupsOf, ih]

/-- What `toggle_numlock` does once its argument has parsed as `turn_on`. -/
theorem toggle_numlock_of_ok {args : List PyObject} {turn_on : Int}
    (h : PyArg_ParseTuple_i args = Except.ok turn_on) (w : Os) :
    toggle_numlock args w =
      if ((numlockBit w.keys : Nat) : Int) ≠ turn_on then
        (Except.ok (PyObject.long (numlockBit w.keys : Nat)),
          Os.mk (flipNumlock w.keys) (w.calls ++ toggleCalls))
      else
        (Except.ok (PyObject.long (numlockBit w.keys : Nat)),
          Os.mk w.keys (w.calls ++ [OsCall.getKeyboardState])) := by
  have e1 : KeybdEvent.mk VK_NUMLOCK 0x45 (KEYEVENTF_EXTENDEDKEY ||| 0) 0 = numlockDown := by
    simp [numlockDown]
  have e2 : KeybdEvent.mk VK_NUMLOCK 0x45 (KEYEVENTF_EXTENDEDKEY ||| KEYEVENTF_KEYUP) 0
      = numlockUp := rfl
  simp only [toggle_numlock, h, Os.GetKeyboardState, Os.keybd_event, Nat.and_one_is_mod,
    e1, e2, osProcess_numlockDown, osProcess_numlockUp, numlockBit, toggleCalls,
    List.append_assoc, List.singleton_append, List.cons_append, List.nil_append]

theorem toggle_numlock_of_error {args : List PyObject} {e : PyErr}
    (h : PyArg_ParseTuple_i args = Except.error e) (w : Os) :
    toggle_numlock args w = (Except.error e, w) := by
  simp only [toggle_numlock, h]


/-! ## toggle_numlock -/

/-- C1: for every integer argument `turn_on` (one that fits a C `int`) and every
keyboard state, `toggle_numlock` returns the low bit of the table's NUMLOCK
entry as read before any event is emitted; that value is 0 or 1, and the result
is the same for any other argument and any other keyboard state whose NUMLOCK
entry has the same low bit (so it depends neither on `turn_on`, nor on whether
the call toggles, nor on the other bits or the other entries of the table). -/
theorem toggle_numlock_returns_prior_state (turn_on : Int)
    (h1 : INT_MIN ≤ turn_on) (h2 : turn_on ≤ INT_MAX) (w : Os) :
    (toggle_numlock [PyObject.long turn_on] w).1
        = Except.ok (PyObject.long ((w.keys ⟨VK_NUMLOCK, by decide⟩ % 2 : Nat) : Int))
      ∧ w.keys ⟨VK_NUMLOCK, by decide⟩ % 2 ≤ 1
      ∧ ∀ (turn_on2 : Int) (w2 : Os), INT_MIN ≤ turn_on2 → turn_on2 ≤ INT_MAX →
          w2.keys ⟨VK_NUMLOCK, by decide⟩ % 2 = w.keys ⟨VK_NUMLOCK, by decide⟩ % 2 →
          (toggle_numlock [PyObject.long turn_on2] w2).1
            = (toggle_numlock [PyObject.long turn_on] w).1 := by
  have key : ∀ (t : Int) (v : Os), INT_MIN ≤ t → t ≤ INT_MAX →
      (toggle_numlock [PyObject.long t] v).1
        = Except.ok (PyObject.long ((v.keys ⟨VK_NUMLOCK, by decide⟩ % 2 : Nat) : Int)) := by
    intro t v a b
    rw [toggle_numlock_of_ok (parse_long a b)]
    split <;> rfl
  refine ⟨key turn_on w h1 h2, ?_, ?_⟩
  · omega
  · intro t v a b hbit
    rw [key t v a b, key turn_on w h1 h2, hbit]

/-- C1, at a concrete input: asked to turn NUMLOCK on while the NUMLOCK entry is
0x81, the call returns 1. -/
theorem toggle_numlock_returns_prior_state_witness :
    (toggle_numlock [PyObject.long 1] (Os.mk keysOn [])).1 = Except.ok (PyObject.long 1) :=
  (toggle_numlock_returns_prior_state 1 (by decide) (by decide) (Os.mk keysOn [])).1

/-- C2: with the operating system flipping the NUMLOCK bit on each NUMLOCK
key-down event, for `x` in {0, 1} and a keyboard state whose NUMLOCK bit is
`1 - x`, `toggle_numlock(x)` returns `1 - x` and the NUMLOCK bit after the call
is `x`. -/
theorem toggle_numlock_switches (x : Int) (hx : x = 0 ∨ x = 1) (w : Os)
    (hw : (numlockBit w.keys : Int) = 1 - x) :
    (toggle_numlock [PyObject.long x] w).1 = Except.ok (PyObject.long (1 - x))
      ∧ (numlockBit (toggle_numlock [PyObject.long x] w).2.keys : Int) = x := by
  have a : INT_MIN ≤ x := by rcases hx with h | h <;> simp [h, INT_MIN]
  have b : x ≤ INT_MAX := by rcases hx with h | h <;> simp [h, INT_MAX]
  have hne : (numlockBit w.keys : Int) ≠ x := by omega
  rw [toggle_numlock_of_ok (parse_long a b), if_pos hne]
  refine ⟨by simp only [hw], ?_⟩
  simp only [numlockBit_flipNumlock]
  omega

/-- C2, the two cases of the specification: `toggle_numlock(1)` with NUMLOCK
off returns 0 and leaves NUMLOCK on; `toggle_numlock(0)` with NUMLOCK on
returns 1 and leaves NUMLOCK off. -/
theorem toggle_numlock_switches_witness :
    ((toggle_numlock [PyObject.long 1] (Os.mk keysOff [])).1 = Except.ok (PyObject.long (1 - 1))
      ∧ (numlockBit (toggle_numlock [PyObject.long 1] (Os.mk keysOff [])).2.keys : Int) = 1)
    ∧ ((toggle_numlock [PyObject.long 0] (Os.mk keysOn [])).1 = Except.ok (PyObject.long (1 - 0))
      ∧ (numlockBit (toggle_numlock [PyObject.long 0] (Os.mk keysOn [])).2.keys : Int) = 0) :=
  ⟨toggle_numlock_switches 1 (Or.inr rfl) (Os.mk keysOff []) (by decide),
   toggle_numlock_switches 0 (Or.inl rfl) (Os.mk keysOn []) (by decide)⟩

/-- C3: for every `x` and every keyboard state whose NUMLOCK bit already equals
`x`, `toggle_numlock(x)` returns `x`, makes the keyboard-state query and no
other call (so it emits zero synthetic events), and leaves the keyboard-state
table unchanged. -/
theorem toggle_numlock_noop (x : Int) (w : Os) (hw : (numlockBit w.keys : Int) = x) :
    (toggle_numlock [PyObject.long x] w).1 = Except.ok (PyObject.long x)
      ∧ (toggle_numlock [PyObject.long x] w).2.calls = w.calls ++ [OsCall.getKeyboardState]
      ∧ eventsOf (toggle_numlock [PyObject.long x] w).2.calls = eventsOf w.calls
      ∧ (toggle_numlock [PyObject.long x] w).2.keys = w.keys := by
  have hb := numlockBit_le_one w.keys
  have a : INT_MIN ≤ x := by unfold INT_MIN; omega
  have b : x ≤ INT_MAX := by unfold INT_MAX; omega
  rw [toggle_numlock_of_ok (parse_long a b), if_neg (by simp [hw])]
  refine ⟨by simp only [hw], rfl, ?_, rfl⟩
  simp [eventsOf_append, eventsOf]

/-- C3, at a concrete input: `toggle_numlock(1)` with NUMLOCK on. -/
theorem toggle_numlock_noop_witness :
    (toggle_numlock [PyObject.long 1] (Os.mk keysOn [])).1 = Except.ok (PyObject.long 1)
      ∧ (toggle_numlock [PyObject.long 1] (Os.mk keysOn [])).2.calls
          = [] ++ [OsCall.getKeyboardState]
      ∧ eventsOf (toggle_numlock [PyObject.long 1] (Os.mk keysOn [])).2.calls = eventsOf []
      ∧ (toggle_numlock [PyObject.long 1] (Os.mk keysOn [])).2.keys = keysOn :=
  toggle_numlock_noop 1 (Os.mk keysOn []) (by decide)


/-- C4, as stated, fails: `toggle_numlock(2)` has a non-zero argument and finds
NUMLOCK on, yet it emits the two NUMLOCK events and NUMLOCK is off after the
call. -/
theorem toggle_numlock_nonzero_counterexample :
    numlockBit keysOn = 1
      ∧ eventsOf (toggle_numlock [PyObject.long 2] (Os.mk keysOn [])).2.calls
          = [numlockDown, numlockUp]
      ∧ numlockBit (toggle_numlock [PyObject.long 2] (Os.mk keysOn [])).2.keys = 0 := by
  refine ⟨by decide, ?_, ?_⟩
  · rw [toggle_numlock_of_ok (parse_long (by decide) (by decide)), if_pos (by decide)]
    rfl
  · rw [toggle_numlock_of_ok (parse_long (by decide) (by decide)), if_pos (by decide)]
    rfl

/-- C4, amended: for every non-zero `desired_on` that fits a C `int`, if NUMLOCK
is off the call emits the toggle and NUMLOCK is on after the call; if NUMLOCK
is already on and `desired_on` is 1 the call emits no events and NUMLOCK stays
on. For `desired_on = 0`, NUMLOCK is off after the call. -/
theorem toggle_numlock_desired_state (desired_on : Int)
    (h1 : INT_MIN ≤ desired_on) (h2 : desired_on ≤ INT_MAX) (w : Os) :
    (desired_on ≠ 0 → numlockBit w.keys = 0 →
        (toggle_numlock [PyObject.long desired_on] w).2.calls = w.calls ++ toggleCalls
          ∧ numlockBit (toggle_numlock [PyObject.long desired_on] w).2.keys = 1)
      ∧ (desired_on = 1 → numlockBit w.keys = 1 →
          eventsOf (toggle_numlock [PyObject.long desired_on] w).2.calls = eventsOf w.calls
            ∧ numlockBit (toggle_numlock [PyObject.long desired_on] w).2.keys = 1)
      ∧ (desired_on = 0 →
          numlockBit (toggle_numlock [PyObject.long desired_on] w).2.keys = 0) := by
  have hb := numlockBit_le_one w.keys
  rw [toggle_numlock_of_ok (parse_long h1 h2)]
  refine ⟨?_, ?_, ?_⟩
  · intro hd hoff
    rw [if_pos (by omega)]
    refine ⟨rfl, ?_⟩
    simp only [numlockBit_flipNumlock]
    omega
  · intro hd hon
    rw [if_neg (by omega)]
    refine ⟨?_, hon⟩
    simp [eventsOf_append, eventsOf]
  · intro hd
    split
    · simp only [numlockBit_flipNumlock]
      omega
    · simp only
      omega

/-- C4 amended, at concrete inputs: `toggle_numlock(-1)` with NUMLOCK off,
`toggle_numlock(1)` with NUMLOCK on, `toggle_numlock(0)` with NUMLOCK on. -/
theorem toggle_numlock_desired_state_witness :
    ((toggle_numlock [PyObject.long (-1)] (Os.mk keysOff [])).2.calls = [] ++ toggleCalls
        ∧ numlockBit (toggle_numlock [PyObject.long (-1)] (Os.mk keysOff [])).2.keys = 1)
      ∧ (eventsOf (toggle_numlock [PyObject.long 1] (Os.mk keysOn [])).2.calls = eventsOf []
        ∧ numlockBit (toggle_numlock [PyObject.long 1] (Os.mk keysOn [])).2.keys = 1)
      ∧ numlockBit (toggle_numlock [PyObject.long 0] (Os.mk keysOn [])).2.keys = 0 :=
  ⟨(toggle_numlock_desired_state (-1) (by decide) (by decide) (Os.mk keysOff [])).1
      (by decide) (by decide),
   (toggle_numlock_desired_state 1 (by decide) (by decide) (Os.mk keysOn [])).2.1
      rfl (by decide),
   (toggle_numlock_desired_state 0 (by decide) (by decide) (Os.mk keysOn [])).2.2 rfl⟩

/-- C8: whatever its arguments and the keyboard state, `toggle_numlock` either
emits no event or emits exactly two, a key-down and then a key-up event, both
for the NUMLOCK key 0x90 with scan code 0x45 and no extra data, the first with
the extended-key flag alone and the second with the extended-key and key-up
flags; it never calls the scan-code lookup. -/
theorem toggle_numlock_events (args : List PyObject) (w : Os) :
    ∃ new : List OsCall,
      (toggle_numlock args w).2.calls = w.calls ++ new
        ∧ lookupsOf new = []
        ∧ (eventsOf new = []
            ∨ eventsOf new =
                [KeybdEvent.mk 0x90 0x45 KEYEVENTF_EXTENDEDKEY 0,
                 KeybdEvent.mk 0x90 0x45 (KEYEVENTF_EXTENDEDKEY ||| KEYEVENTF_KEYUP) 0]) := by
  cases h : PyArg_ParseTuple_i args with
  | error e =>
      exact ⟨[], by rw [toggle_numlock_of_error h]; simp, rfl, Or.inl rfl⟩
  | ok t =>
      rw [toggle_numlock_of_ok h]
      split
      · exact ⟨toggleCalls, rfl, rfl, Or.inr rfl⟩
      · exact ⟨[OsCall.getKeyboardState], rfl, rfl, Or.inl rfl⟩

/-- C9: with the operating system flipping the NUMLOCK bit on each NUMLOCK
key-down event, for every `x` that fits a C `int` and every keyboard state,
`toggle_numlock(x)` returns an integer `p`, and a following `toggle_numlock(p)`
leaves the NUMLOCK bit equal to its value before the first call. -/
theorem toggle_numlock_restore (x : Int) (h1 : INT_MIN ≤ x) (h2 : x ≤ INT_MAX) (w : Os) :
    ∃ p : Int,
      (toggle_numlock [PyObject.long x] w).1 = Except.ok (PyObject.long p)
        ∧ numlockBit (toggle_numlock [PyObject.long p]
            (toggle_numlock [PyObject.long x] w).2).2.keys = numlockBit w.keys := by
  have hb := numlockBit_le_one w.keys
  have a : INT_MIN ≤ ((numlockBit w.keys : Nat) : Int) := by unfold INT_MIN; omega
  have b : ((numlockBit w.keys : Nat) : Int) ≤ INT_MAX := by unfold INT_MAX; omega
  refine ⟨(numlockBit w.keys : Nat), ?_, ?_⟩
  · rw [toggle_numlock_of_ok (parse_long h1 h2)]
    split <;> rfl
  · rw [toggle_numlock_of_ok (parse_long h1 h2)]
    split
    · rw [toggle_numlock_of_ok (parse_long a b)]
      simp only [numlockBit_flipNumlock]
      split
      · simp only [numlockBit_flipNumlock]
        omega
      · simp only
        omega
    · rw [toggle_numlock_of_ok (parse_long a b)]
      simp

/-- C9, at a concrete input: `toggle_numlock(0)` with NUMLOCK on, then the
restoring call. -/
theorem toggle_numlock_restore_witness :
    ∃ p : Int,
      (toggle_numlock [PyObject.long 0] (Os.mk keysOn [])).1 = Except.ok (PyObject.long p)
        ∧ numlockBit (toggle_numlock [PyObject.long p]
            (toggle_numlock [PyObject.long 0] (Os.mk keysOn [])).2).2.keys
              = numlockBit keysOn :=
  toggle_numlock_restore 0 (by decide) (by decide) (Os.mk keysOn [])

/-- C10: `toggle_numlock(turn_on)` makes the keyboard-state query and then
emits its two NUMLOCK events exactly when the low bit of the NUMLOCK entry,
as an integer, differs from `turn_on`; otherwise it emits none. Hence for
`turn_on` outside {0, 1} it emits the two events whatever the state and flips
the NUMLOCK bit, and two successive calls with such an argument emit the pair
twice and flip NUMLOCK twice, back to its initial value. -/
theorem toggle_numlock_integer_compare (turn_on : Int)
    (h1 : INT_MIN ≤ turn_on) (h2 : turn_on ≤ INT_MAX) (w : Os) :
    (((w.keys ⟨VK_NUMLOCK, by decide⟩ % 2 : Nat) : Int) ≠ turn_on →
        (toggle_numlock [PyObject.long turn_on] w).2.calls = w.calls ++
          [OsCall.getKeyboardState, OsCall.keybdEvent numlockDown, OsCall.keybdEvent numlockUp])
      ∧ (((w.keys ⟨VK_NUMLOCK, by decide⟩ % 2 : Nat) : Int) = turn_on →
          (toggle_numlock [PyObject.long turn_on] w).2.calls
            = w.calls ++ [OsCall.getKeyboardState])
      ∧ (turn_on ≠ 0 → turn_on ≠ 1 →
          eventsOf (toggle_numlock [PyObject.long turn_on] w).2.calls
              = eventsOf w.calls ++ [numlockDown, numlockUp]
            ∧ numlockBit (toggle_numlock [PyObject.long turn_on] w).2.keys
              = 1 - numlockBit w.keys
            ∧ eventsOf (toggle_numlock [PyObject.long turn_on]
                (toggle_numlock [PyObject.long turn_on] w).2).2.calls
              = eventsOf w.calls ++ [numlockDown, numlockUp, numlockDown, numlockUp]
            ∧ numlockBit (toggle_numlock [PyObject.long turn_on]
                (toggle_numlock [PyObject.long turn_on] w).2).2.keys
              = numlockBit w.keys) := by
  have hb := numlockBit_le_one w.keys
  have hf := numlockBit_le_one (flipNumlock w.keys)
  have hbit : w.keys ⟨VK_NUMLOCK, by decide⟩ % 2 = numlockBit w.keys := rfl
  rw [hbit, toggle_numlock_of_ok (parse_long h1 h2)]
  refine ⟨?_, ?_, ?_⟩
  · intro hne
    rw [if_pos hne]
    rfl
  · intro heq
    rw [if_neg (by simp [heq])]
  · intro n0 n1
    rw [if_pos (by omega)]
    have k : toggle_numlock [PyObject.long turn_on]
        (Os.mk (flipNumlock w.keys) (w.calls ++ toggleCalls))
          = (Except.ok (PyObject.long (numlockBit (flipNumlock w.keys) : Nat)),
              Os.mk (flipNumlock (flipNumlock w.keys))
                (w.calls ++ toggleCalls ++ toggleCalls)) := by
      rw [toggle_numlock_of_ok (parse_long h1 h2)]
      exact if_pos (by show ((numlockBit (flipNumlock w.keys) : Nat) : Int) ≠ turn_on; omega)
    refine ⟨?_, ?_, ?_, ?_⟩
    · simp [eventsOf_append, eventsOf, toggleCalls]
    · exact numlockBit_flipNumlock w.keys
    · show eventsOf (toggle_numlock [PyObject.long turn_on]
        (Os.mk (flipNumlock w.keys) (w.calls ++ toggleCalls))).2.calls = _
      rw [k]
      simp [eventsOf_append, eventsOf, toggleCalls]
    · show numlockBit (toggle_numlock [PyObject.long turn_on]
        (Os.mk (flipNumlock w.keys) (w.calls ++ toggleCalls))).2.keys = _
      rw [k]
      show numlockBit (flipNumlock (flipNumlock w.keys)) = _
      simp only [numlockBit_flipNumlock]
      omega

/-- C10, at concrete inputs: `toggle_numlock(2)` with NUMLOCK on, called once
and twice. -/
theorem toggle_numlock_integer_compare_witness :
    eventsOf (toggle_numlock [PyObject.long 2] (Os.mk keysOn [])).2.calls
        = eventsOf [] ++ [numlockDown, numlockUp]
      ∧ numlockBit (toggle_numlock [PyObject.long 2] (Os.mk keysOn [])).2.keys
        = 1 - numlockBit keysOn
      ∧ eventsOf (toggle_numlock [PyObject.long 2]
          (toggle_numlock [PyObject.long 2] (Os.mk keysOn [])).2).2.calls
        = eventsOf [] ++ [numlockDown, numlockUp, numlockDown, numlockUp]
      ∧ numlockBit (toggle_numlock [PyObject.long 2]
          (toggle_numlock [PyObject.long 2] (Os.mk keysOn [])).2).2.keys
        = numlockBit keysOn :=
  (toggle_numlock_integer_compare 2 (by decide) (by decide) (Os.mk keysOn [])).2.2
    (by decide) (by decide)


/-! ## key_down and key_up -/

theorem toBYTE_toChar (n : Int) : toBYTE (toChar n) = toBYTE n := by
  unfold toBYTE toChar
  omega

theorem toBYTE_toChar_uint (m : Nat) :
    toBYTE (toChar ((m % 4294967296 : Nat) : Int)) = m % 256 := by
  unfold toBYTE toChar
  omega

theorem toBYTE_mod (n : Int) : toBYTE (n % 256) = toBYTE n := by
  unfold toBYTE
  omega

theorem toBYTE_of_le (vk : Nat) (h : vk ≤ 255) : toBYTE (vk : Int) = vk := by
  unfold toBYTE
  omega

theorem toUINT_toChar_toBYTE_of_le (vk : Nat) (h : vk ≤ 127) :
    toUINT (toChar (toBYTE (vk : Int))) = vk := by
  unfold toUINT toChar toBYTE
  omega

/-- What `key_down` does once its argument has parsed as `vk`. -/
theorem key_down_of_ok (mapVk : Nat → Nat → Nat) {args : List PyObject} {vk : Int}
    (h : PyArg_ParseTuple_i args = Except.ok vk) (w : Os) :
    key_down mapVk args w =
      (Except.ok PyObject.none,
        Os.mk
          (osProcess w.keys (KeybdEvent.mk (toBYTE vk)
            (mapVk (toUINT (toChar (toBYTE vk))) 0 % 256) 0 0))
          (w.calls ++ [OsCall.mapVirtualKey (toUINT (toChar (toBYTE vk))) 0,
            OsCall.keybdEvent (KeybdEvent.mk (toBYTE vk)
              (mapVk (toUINT (toChar (toBYTE vk))) 0 % 256) 0 0)])) := by
  have hvk : toBYTE (toChar (toChar ((toBYTE vk : Nat) : Int))) = toBYTE vk := by
    unfold toBYTE toChar
    omega
  simp only [key_down, h, _key_down, Os.MapVirtualKeyA, Os.keybd_event, hvk, toBYTE_toChar_uint,
    List.append_assoc, List.singleton_append]

/-- What `key_up` does once its argument has parsed as `vk`. -/
theorem key_up_of_ok (mapVk : Nat → Nat → Nat) {args : List PyObject} {vk : Int}
    (h : PyArg_ParseTuple_i args = Except.ok vk) (w : Os) :
    key_up mapVk args w =
      (Except.ok PyObject.none,
        Os.mk
          (osProcess w.keys (KeybdEvent.mk (toBYTE vk)
            (mapVk (toUINT (toChar (toBYTE vk))) 0 % 256) KEYEVENTF_KEYUP 0))
          (w.calls ++ [OsCall.mapVirtualKey (toUINT (toChar (toBYTE vk))) 0,
            OsCall.keybdEvent (KeybdEvent.mk (toBYTE vk)
              (mapVk (toUINT (toChar (toBYTE vk))) 0 % 256) KEYEVENTF_KEYUP 0)])) := by
  have hvk : toBYTE (toChar (toChar ((toBYTE vk : Nat) : Int))) = toBYTE vk := by
    unfold toBYTE toChar
    omega
  simp only [key_up, h, _key_up, Os.MapVirtualKeyA, Os.keybd_event, hvk, toBYTE_toChar_uint,
    List.append_assoc, List.singleton_append]


theorem key_down_of_error (mapVk : Nat → Nat → Nat) {args : List PyObject} {e : PyErr}
    (h : PyArg_ParseTuple_i args = Except.error e) (w : Os) :
    key_down mapVk args w = (Except.error e, w) := by
  simp only [key_down, h]

theorem key_up_of_error (mapVk : Nat → Nat → Nat) {args : List PyObject} {e : PyErr}
    (h : PyArg_ParseTuple_i args = Except.error e) (w : Os) :
    key_up mapVk args w = (Except.error e, w) := by
  simp only [key_up, h]

/-- C5, evaluated at `vk = 144` with a lookup that maps 144 to the scan code
0x45 and every other code to 0: `key_down(144)` followed by `key_up(144)` emits
a key-down and then a key-up event with key code 144, but the `char` parameter
of `_key_down` / `_key_up` holds -112, so both lookups are made for 4294967184
and not for 144, and both events carry scan code 0 where the lookup gives 0x45
for 144 itself. -/
theorem key_down_up_sign_extended :
    mapNumlockOnly 144 0 = 0x45
      ∧ lookupsOf (key_up mapNumlockOnly [PyObject.long 144]
          (key_down mapNumlockOnly [PyObject.long 144] (Os.mk keysOff [])).2).2.calls
        = [(4294967184, 0), (4294967184, 0)]
      ∧ eventsOf (key_up mapNumlockOnly [PyObject.long 144]
          (key_down mapNumlockOnly [PyObject.long 144] (Os.mk keysOff [])).2).2.calls
        = [KeybdEvent.mk 144 0 0 0, KeybdEvent.mk 144 0 KEYEVENTF_KEYUP 0] := by
  refine ⟨rfl, ?_, ?_⟩ <;> decide

/-- On all of [0, 255], `key_down(vk)` followed by `key_up(vk)` both return
`None` and emit exactly two events, in this order: a key-down event (no flags,
no extra data) and then a key-up event (only the key-up flag, no extra data),
both with key code `vk` and with one and the same scan code. -/
theorem key_down_then_key_up_shape (mapVk : Nat → Nat → Nat) (vk : Nat) (h : vk ≤ 255)
    (w : Os) :
    (key_down mapVk [PyObject.long vk] w).1 = Except.ok PyObject.none
      ∧ (key_up mapVk [PyObject.long vk] (key_down mapVk [PyObject.long vk] w).2).1
          = Except.ok PyObject.none
      ∧ ∃ scan : Nat,
          eventsOf (key_up mapVk [PyObject.long vk]
              (key_down mapVk [PyObject.long vk] w).2).2.calls
            = eventsOf w.calls ++
              [KeybdEvent.mk vk scan 0 0, KeybdEvent.mk vk scan KEYEVENTF_KEYUP 0] := by
  have a : INT_MIN ≤ (vk : Int) := by unfold INT_MIN; omega
  have b : (vk : Int) ≤ INT_MAX := by unfold INT_MAX; omega
  have hp := parse_long a b
  rw [key_down_of_ok mapVk hp, key_up_of_ok mapVk hp, toBYTE_of_le vk h]
  refine ⟨rfl, rfl, mapVk (toUINT (toChar (vk : Int))) 0 % 256, ?_⟩
  simp only [eventsOf_append, eventsOf, List.append_assoc, List.cons_append,
    List.nil_append]

/-- Below 128 the `char` parameter holds `vk` itself: for every lookup whose
results are scan codes (one byte) and every `vk` in [0, 127], `key_down(vk)`
followed by `key_up(vk)` makes exactly four calls, in this order: the lookup
for `vk` with mapping argument 0, a key-down event (no flags, no extra data),
the same lookup again, and a key-up event (only the key-up flag, no extra
data); both events have key code `vk` and the scan code that the lookup
returns for `vk` with mapping argument 0. -/
theorem key_down_then_key_up_low (mapVk : Nat → Nat → Nat)
    (hscan : ∀ c t : Nat, mapVk c t < 256) (vk : Nat) (h : vk ≤ 127) (w : Os) :
    (key_up mapVk [PyObject.long vk] (key_down mapVk [PyObject.long vk] w).2).2.calls
        = w.calls ++
          [OsCall.mapVirtualKey vk 0,
           OsCall.keybdEvent (KeybdEvent.mk vk (mapVk vk 0) 0 0),
           OsCall.mapVirtualKey vk 0,
           OsCall.keybdEvent (KeybdEvent.mk vk (mapVk vk 0) KEYEVENTF_KEYUP 0)]
      ∧ eventsOf (key_up mapVk [PyObject.long vk]
            (key_down mapVk [PyObject.long vk] w).2).2.calls
          = eventsOf w.calls ++
            [KeybdEvent.mk vk (mapVk vk 0) 0 0,
             KeybdEvent.mk vk (mapVk vk 0) KEYEVENTF_KEYUP 0] := by
  have a : INT_MIN ≤ (vk : Int) := by unfold INT_MIN; omega
  have b : (vk : Int) ≤ INT_MAX := by unfold INT_MAX; omega
  have hp := parse_long a b
  rw [key_down_of_ok mapVk hp, key_up_of_ok mapVk hp, toUINT_toChar_toBYTE_of_le vk h,
    toBYTE_of_le vk (by omega), Nat.mod_eq_of_lt (hscan vk 0)]
  refine ⟨?_, ?_⟩
  · simp only [List.append_assoc, List.cons_append, List.nil_append]
  · simp only [eventsOf_append, eventsOf, List.append_assoc, List.cons_append,
      List.nil_append]

/-- C6: when the arguments do not parse as one C `int`, each of `key_down`,
`key_up` and `toggle_numlock` returns the parser's error and leaves the
operating system as it was, with no call made (no lookup, no keyboard-state
query, no event); when they parse, `key_down` and `key_up` return `None` and
`toggle_numlock` returns an integer. -/
theorem argument_error (mapVk : Nat → Nat → Nat) (args : List PyObject) (w : Os) :
    (∀ e : PyErr, PyArg_ParseTuple_i args = Except.error e →
        key_down mapVk args w = (Except.error e, w)
          ∧ key_up mapVk args w = (Except.error e, w)
          ∧ toggle_numlock args w = (Except.error e, w))
      ∧ (∀ n : Int, PyArg_ParseTuple_i args = Except.ok n →
          (key_down mapVk args w).1 = Except.ok PyObject.none
            ∧ (key_up mapVk args w).1 = Except.ok PyObject.none
            ∧ ∃ k : Int, (toggle_numlock args w).1 = Except.ok (PyObject.long k)) := by
  refine ⟨?_, ?_⟩
  · intro e h
    exact ⟨key_down_of_error mapVk h w, key_up_of_error mapVk h w, toggle_numlock_of_error h w⟩
  · intro n h
    refine ⟨by rw [key_down_of_ok mapVk h], by rw [key_up_of_ok mapVk h], ?_⟩
    refine ⟨(numlockBit w.keys : Nat), ?_⟩
    rw [toggle_numlock_of_ok h]
    split <;> rfl

/-- C6, at concrete inputs: a text argument, no argument, two integers and an
integer too large for a C `int` are all refused by `key_down`, `key_up` and
`toggle_numlock`, with no call made; the integer 65 is accepted. -/
theorem argument_error_witness :
    (key_down mapWide [PyObject.unicode "a"] (Os.mk keysOn [])
          = (Except.error PyErr.TypeError, Os.mk keysOn [])
        ∧ key_up mapWide [PyObject.unicode "a"] (Os.mk keysOn [])
          = (Except.error PyErr.TypeError, Os.mk keysOn [])
        ∧ toggle_numlock [PyObject.unicode "a"] (Os.mk keysOn [])
          = (Except.error PyErr.TypeError, Os.mk keysOn []))
      ∧ toggle_numlock [] (Os.mk keysOn []) = (Except.error PyErr.TypeError, Os.mk keysOn [])
      ∧ key_down mapWide [PyObject.long 1, PyObject.long 2] (Os.mk keysOn [])
          = (Except.error PyErr.TypeError, Os.mk keysOn [])
      ∧ key_up mapWide [PyObject.long 2147483648] (Os.mk keysOn [])
          = (Except.error PyErr.OverflowError, Os.mk keysOn [])
      ∧ ((key_down mapWide [PyObject.long 65] (Os.mk keysOn [])).1 = Except.ok PyObject.none
        ∧ (key_up mapWide [PyObject.long 65] (Os.mk keysOn [])).1 = Except.ok PyObject.none
        ∧ ∃ k : Int,
            (toggle_numlock [PyObject.long 65] (Os.mk keysOn [])).1
              = Except.ok (PyObject.long k)) :=
  ⟨(argument_error mapWide [PyObject.unicode "a"] (Os.mk keysOn [])).1 PyErr.TypeError rfl,
   ((argument_error mapWide [] (Os.mk keysOn [])).1 PyErr.TypeError rfl).2.2,
   ((argument_error mapWide [PyObject.long 1, PyObject.long 2] (Os.mk keysOn [])).1
      PyErr.TypeError rfl).1,
   ((argument_error mapWide [PyObject.long 2147483648] (Os.mk keysOn [])).1
      PyErr.OverflowError rfl).2.1,
   (argument_error mapWide [PyObject.long 65] (Os.mk keysOn [])).2 65 rfl⟩

/-- C7: for every `vk` that fits a C `int`, so in particular for every such
`vk` outside [0, 255], negative values included, `key_down(vk)` and
`key_up(vk)` return `None` (no range error) and each emits exactly one event,
whose key code is `vk mod 256`; the whole effect of `key_down(vk)` is that of
`key_down(vk mod 256)`, and likewise for `key_up`. -/
theorem key_code_truncated (mapVk : Nat → Nat → Nat) (vk : Int)
    (h1 : INT_MIN ≤ vk) (h2 : vk ≤ INT_MAX) (w : Os) :
    ((key_down mapVk [PyObject.long vk] w).1 = Except.ok PyObject.none
        ∧ (∃ scan : Nat, eventsOf (key_down mapVk [PyObject.long vk] w).2.calls
            = eventsOf w.calls ++ [KeybdEvent.mk (vk % 256).toNat scan 0 0])
        ∧ key_down mapVk [PyObject.long vk] w = key_down mapVk [PyObject.long (vk % 256)] w)
      ∧ ((key_up mapVk [PyObject.long vk] w).1 = Except.ok PyObject.none
        ∧ (∃ scan : Nat, eventsOf (key_up mapVk [PyObject.long vk] w).2.calls
            = eventsOf w.calls ++ [KeybdEvent.mk (vk % 256).toNat scan KEYEVENTF_KEYUP 0])
        ∧ key_up mapVk [PyObject.long vk] w = key_up mapVk [PyObject.long (vk % 256)] w) := by
  have a : INT_MIN ≤ vk % 256 := by unfold INT_MIN; omega
  have b : vk % 256 ≤ INT_MAX := by unfold INT_MAX; omega
  have hp := parse_long h1 h2
  have hq := parse_long a b
  have hbyte : (vk % 256).toNat = toBYTE vk := rfl
  rw [key_down_of_ok mapVk hp, key_up_of_ok mapVk hp, key_down_of_ok mapVk hq,
    key_up_of_ok mapVk hq, toBYTE_mod, hbyte]
  refine ⟨⟨rfl, ⟨mapVk (toUINT (toChar ((toBYTE vk : Nat) : Int))) 0 % 256, ?_⟩, rfl⟩,
    rfl, ⟨mapVk (toUINT (toChar ((toBYTE vk : Nat) : Int))) 0 % 256, ?_⟩, rfl⟩
  · simp only [eventsOf_append, eventsOf]
  · simp only [eventsOf_append, eventsOf]

/-- C7, at concrete inputs: `key_down(400)` acts as `key_down(144)` and
`key_up(-1)` acts as `key_up(255)`. -/
theorem key_code_truncated_witness :
    key_down mapWide [PyObject.long 400] (Os.mk keysOff [])
        = key_down mapWide [PyObject.long (400 % 256)] (Os.mk keysOff [])
      ∧ key_up mapWide [PyObject.long (-1)] (Os.mk keysOff [])
        = key_up mapWide [PyObject.long (-1 % 256)] (Os.mk keysOff []) :=
  ⟨(key_code_truncated mapWide 400 (by decide) (by decide) (Os.mk keysOff [])).1.2.2,
   (key_code_truncated mapWide (-1) (by decide) (by decide) (Os.mk keysOff [])).2.2.2⟩

end SendKeys
